import Mathlib

/-!
Verification development for the Sirikata TCP multiplexed-stream transport
(TCPStream.cpp) and the reactor-singleton accessor (IOServiceFactory.cpp).

The stateful C++ is embedded shallowly: machine state (the atomic
send-status word, the multiplexed socket, the stream handle) is passed
explicitly, and concurrency is modelled by a small-step relation over a
system state holding the per-thread program counters.
-/

namespace Sirikata
namespace Network

/-- Modelled from the spec: the constant `SendStatusClosing` is declared in
TCPStream.hpp, which is not part of the excerpt; the spec fixes its design as
"a power of two larger than the maximum concurrent sender count".  We fix the
power of two 2^29, comfortably above the at most two concurrent senders, so
that the closer-multiplicity field (at most 3 closers) occupies bits 29-30 of
the 32-bit word. -/
def SendStatusClosing : ℕ := 2 ^ 29

/-- The guard `(sendStatus & (3*SendStatusClosing)) == 0` used both by
`TCPStream::send` (line 93) and by `TCPStream::closeSendStatus` (line 109):
true when no closer has claimed the closing field. -/
def noCloserPresent (v : ℕ) : Bool :=
  (v &&& (3 * SendStatusClosing)) == 0

/-- Exit condition of the spin loop in `TCPStream::closeSendStatus`
(lines 115-117): the loop exits when the word reads exactly
`SendStatusClosing`, `2*SendStatusClosing` or `3*SendStatusClosing`. -/
def spinDone (v : ℕ) : Bool :=
  (v == SendStatusClosing) || (v == 2 * SendStatusClosing) ||
    (v == 3 * SendStatusClosing)

/-- Modelled from the spec: the variable-length integer codec of
TCPDefinitions.hpp (`uint30` and `Stream::StreamID` serialization) is not part
of the excerpt.  Per the spec (sections 3 and 6): "low bit of each byte
signals continuation; remaining 7 bits are the magnitude, little-endian".
The fuel argument bounds the byte count; 8 recursive unfoldings cover the
9-byte `MAX_SERIALIZED_LENGTH` of a StreamID and the 5-byte cap of a uint30. -/
def vuintSerializeAux : ℕ → ℕ → List ℕ
  | 0, v => [2 * v]
  | fuel + 1, v =>
      if v < 128 then [2 * v]
      else (2 * (v % 128) + 1) :: vuintSerializeAux fuel (v / 128)

/-- Serialization of a variable-length integer (StreamID or uint30). -/
def vuintSerialize (v : ℕ) : List ℕ :=
  vuintSerializeAux 8 v

/-- The three values of `StreamReliability` handled by the switch in
`TCPStream::send` (lines 53-66); the comment there notes the fourth
ordered-unreliable combination is deliberately not offered. -/
inductive StreamReliability
  | Unreliable
  | ReliableOrdered
  | ReliableUnordered
deriving DecidableEq

/-- The `(unordered, unreliable)` flag pair the switch in `TCPStream::send`
assigns for each reliability value. -/
def reliabilityFlags : StreamReliability → Bool × Bool
  | .Unreliable => (true, true)
  | .ReliableOrdered => (false, false)
  | .ReliableUnordered => (true, false)

/-- Error kinds surfaced at the framing boundary (spec section 7). -/
inductive SendError
  | PayloadTooLarge
  | IllegalReliability
deriving DecidableEq

/-- `MultiplexedSocket::RawRequest` as filled in by `TCPStream::send`:
origin stream, the two reliability flags, and the encoded chunk. -/
structure RawRequest where
  originStream : ℕ
  unordered : Bool
  unreliable : Bool
  data : List ℕ
deriving DecidableEq

/-- Everything observable about one sequential `TCPStream::send` call:
the error (modelled from the spec for the `PayloadTooLarge` case), the chunk
it built, what it handed to `MultiplexedSocket::sendBytes`, whether it freed
the chunk itself, what it logged, and the send-status word it leaves. -/
structure SendCallResult where
  error : Option SendError
  built : Option (List ℕ)
  enqueued : Option RawRequest
  chunkFreed : Bool
  log : Option String
  finalWord : ℕ
deriving DecidableEq

/-- Shallow embedding of `TCPStream::send` (TCPStream.cpp lines 50-104) run
without interference, over the stream id `sid`, the send-status word `word`
as the call finds it, the payload `data` and the reliability argument.
The `total ≥ 2^30` failure is modelled from the spec (section 4.1 step 2:
"fail with `PayloadTooLarge` if `total ≥ 2^30`"), since the `uint30` type it
lives in is not part of the excerpt; everything else follows the source:
serialize the stream id, build one contiguous chunk `lenBytes ++ sidBytes ++
payload`, increment the word, send only when `noCloserPresent`, decrement,
and on the drop path free the chunk and log. -/
def TCPStream.send (sid : ℕ) (word : ℕ) (data : List ℕ)
    (reliability : StreamReliability) : SendCallResult :=
  let flags := reliabilityFlags reliability
  let sidBytes := vuintSerialize sid
  let total := data.length + sidBytes.length
  if total < 2 ^ 30 then
    let lenBytes := vuintSerialize total
    let buffer := lenBytes ++ sidBytes ++ data
    let v := word + 1
    if noCloserPresent v then
      { error := none
        built := some buffer
        enqueued := some ⟨sid, flags.1, flags.2, buffer⟩
        chunkFreed := false
        log := none
        finalWord := v - 1 }
    else
      { error := none
        built := some buffer
        enqueued := none
        chunkFreed := true
        log := some ("printing to closed stream id " ++ toString sid)
        finalWord := v - 1 }
  else
    { error := some .PayloadTooLarge
      built := none
      enqueued := none
      chunkFreed := false
      log := none
      finalWord := word }

/-- Result of one `TCPStream::closeSendStatus` call (lines 106-120):
the word after the (conditional) add, whether the call added
`SendStatusClosing` (the local `incd`), and how many spin reads the
unconditional while loop consumed before exiting (`none` when the supplied
trace of observed word values never satisfies the exit condition). -/
structure CloseSendStatusResult where
  word : ℕ
  added : Bool
  spinReads : Option ℕ
deriving DecidableEq

/-- Shallow embedding of `TCPStream::closeSendStatus`.  `w` is the word
value the initial `read()` returns (and the value the add applies to);
`reads` is the trace of values the spin loop's successive `read()` calls
observe, abstracting interference by other threads. -/
def TCPStream.closeSendStatus (w : ℕ) (reads : List ℕ) :
    CloseSendStatusResult :=
  let added := noCloserPresent w
  let w2 := if added then w + SendStatusClosing else w
  match reads.findIdx? (fun v => spinDone v) with
  | some i => ⟨w2, added, some (i + 1)⟩
  | none => ⟨w2, added, none⟩

/-- Callback set installed per stream (connection callback, bytes-received
callback, and the shared send-status reference); the callables are modelled
as opaque natural handles. -/
structure Callbacks where
  connectionCallback : ℕ
  bytesReceivedCallback : ℕ
  sendStatusRef : ℕ
deriving DecidableEq

/-- Lifecycle states of a MultiplexedSocket (spec section 3). -/
inductive ConnectionStatus
  | Unconnected
  | Connecting
  | Connected
  | Draining
  | Disconnected
deriving DecidableEq

/-- Result of `MultiplexedSocket::addCallbacks`; `TCPStream::cloneFrom`
compares it against `DISCONNECTED`. -/
inductive AddCallbacksResult
  | OK
  | DISCONNECTED
deriving DecidableEq

/-- Control frames emitted on stream id 0 (only close is needed here). -/
inductive ControlFrame
  | CLOSE_STREAM (sid : ℕ)
deriving DecidableEq

/-- Modelled from the spec: the `MultiplexedSocket` class is not part of the
excerpt; we keep the fields the stream handle touches (spec section 3): the
`next_local_stream_id` counter, the lifecycle state, the
`StreamID → CallbackSet` table (a `none` entry is an installed NULL set:
closed for delivery), and the control frames asked to be emitted. -/
structure MuxSocket where
  nextLocalStreamId : ℕ
  status : ConnectionStatus
  callbacks : List (ℕ × Option Callbacks)
  controlSent : List ControlFrame
deriving DecidableEq

/-- Modelled from the spec: `new_id()` "returns `next_local_stream_id`, then
increments by 2 (keeping parity by side)" (spec section 4.3). -/
def MuxSocket.getNewID (m : MuxSocket) : ℕ × MuxSocket :=
  (m.nextLocalStreamId, { m with nextLocalStreamId := m.nextLocalStreamId + 2 })

/-- Modelled from the spec: `add_callbacks(sid, cbs)` "installs the callback
set; a `NULL` value means delete and refuse further delivery.  Returns
`DISCONNECTED` if the socket is not Connected, otherwise `OK`"
(spec section 4.3). -/
def MuxSocket.addCallbacks (m : MuxSocket) (sid : ℕ) (cbs : Option Callbacks) :
    MuxSocket × AddCallbacksResult :=
  ({ m with callbacks := (sid, cbs) :: m.callbacks.filter (fun p => p.1 ≠ sid) },
   if m.status = .Connected then .OK else .DISCONNECTED)

/-- Modelled from the spec: `MultiplexedSocket::closeStream` asks the socket
to emit the `CLOSE_STREAM(sid)` control frame (spec sections 4.3 and 4.4). -/
def MuxSocket.closeStream (m : MuxSocket) (sid : ℕ) : MuxSocket :=
  { m with controlSent := m.controlSent ++ [.CLOSE_STREAM sid] }

/-- The order-observable actions `TCPStream::close` takes. -/
inductive CloseEvent
  | acquireCloseSlot
  | removeCallbacks (sid : ℕ)
  | emitCloseStream (sid : ℕ)
deriving DecidableEq

/-- The state a `TCPStream` handle owns: its id, its (possibly null) shared
socket, and its send-status word. -/
structure TCPStreamState where
  mID : ℕ
  mSocket : Option MuxSocket
  sendWord : ℕ
deriving DecidableEq

/-- Shallow embedding of `TCPStream::close` (TCPStream.cpp lines 121-128)
on a stream whose socket state is `m`: run `closeSendStatus` on the word
(with `spinTrace` the values its spin loop observes), then install NULL
callbacks for the stream id, then ask the socket to emit `CLOSE_STREAM`.
Returns the event trace in execution order, the socket state after the call,
and the `closeSendStatus` outcome. -/
def TCPStream.close (st : TCPStreamState) (m : MuxSocket)
    (spinTrace : List ℕ) : List CloseEvent × MuxSocket × CloseSendStatusResult :=
  let r := TCPStream.closeSendStatus st.sendWord spinTrace
  let step1 : List CloseEvent := [.acquireCloseSlot]
  let (m1, _) := m.addCallbacks st.mID none
  let step2 : List CloseEvent := step1 ++ [.removeCallbacks st.mID]
  let m2 := m1.closeStream st.mID
  (step2 ++ [.emitCloseStream st.mID], m2, r)

/-- The argument `TCPStream::cloneFrom` receives through the polymorphic
`Stream*` interface: either a `TCPStream` (carrying its possibly-null socket
and its id) or a stream of another transport family, on which the
`dynamic_cast` at line 149 fails. -/
inductive StreamHandle
  | tcp (socket : Option MuxSocket) (sid : ℕ)
  | nonTcp
deriving DecidableEq

/-- Shallow embedding of `TCPStream::cloneFrom` (TCPStream.cpp lines
146-162): downcast the source, adopt its socket reference, bail out on a
null socket, take a fresh id from the socket, install the callbacks, and
succeed iff `addCallbacks` did not report `DISCONNECTED`.  Returns the
boolean result and the stream state after the call (whose `mSocket` holds
the updated socket state). -/
def TCPStream.cloneFrom (self : TCPStreamState) (other : StreamHandle)
    (cbs : Callbacks) : Bool × TCPStreamState :=
  match other with
  | .nonTcp => (false, self)
  | .tcp sock _ =>
      let self1 := { self with mSocket := sock }
      match sock with
      | none => (false, self1)
      | some m =>
          let (newID, m1) := m.getNewID
          let (m2, res) := m1.addCallbacks newID (some cbs)
          (res ≠ .DISCONNECTED,
           { self1 with mID := newID, mSocket := some m2 })

/-- The globals of IOServiceFactory.cpp that its singleton machinery touches:
the anonymous-namespace flag `called_io_service`, whether the
`boost::call_once` initializer already ran, and the static local pointer
`io` of `singletonIOService` (`none` is NULL).  Heap objects are modelled
by numeric addresses; the function-static `IOService io` inside the
initializer lives at `ioStaticAddr`. -/
structure IOGlobals where
  called_io_service : Bool
  once_done : Bool
  io_static : Option ℕ
deriving DecidableEq

/-- Address of the function-static `IOService io` defined inside
`io_service_initializer`. -/
def ioStaticAddr : ℕ := 1

/-- Shallow embedding of `IOServiceFactory::io_service_initializer`
(IOServiceFactory.cpp lines 40-44).  `io_ret` is a pointer parameter passed
BY VALUE; the function assigns the address of the static `io` to its local
copy and returns that copy's final value, which the caller discards. -/
def IOServiceFactory.io_service_initializer (g : IOGlobals) (io_ret : Option ℕ) :
    IOGlobals × Option ℕ :=
  let ioRet1 := some ioStaticAddr
  ({ g with called_io_service := true }, ioRet1)

/-- Shallow embedding of `IOServiceFactory::singletonIOService`
(IOServiceFactory.cpp lines 46-50): run the initializer through
`boost::call_once` on the first call, binding the CURRENT VALUE of the
static pointer as the argument, then return the reference `*io` - modelled
as the pointer value that gets dereferenced.  The static pointer is only
ever read, never written. -/
def IOServiceFactory.singletonIOService (g : IOGlobals) : IOGlobals × Option ℕ :=
  let g1 :=
    if g.once_done then g
    else
      let (g2, _discarded) :=
        IOServiceFactory.io_service_initializer
          { g with once_done := true } g.io_static
      g2
  (g1, g1.io_static)

/-- The process-start state of the IOServiceFactory globals: the static
pointer `io` is initialized to NULL. -/
def IOGlobals.init : IOGlobals :=
  { called_io_service := false, once_done := false, io_static := none }

/-! ## Concurrent send/close protocol

A small-step system for one LogicalStream's send-status word, with two
sender threads (each executing `TCPStream::send`'s increment / guarded
hand-off / decrement, lines 92-98) and three closer threads (each executing
`TCPStream::closeSendStatus`, lines 106-120).  Atomic operations of the
source are single steps; the non-atomic read-then-add of the closer is two
steps.  Each sender records at its increment the number of closers that had
already added `SendStatusClosing` (a ghost value fixed by the step rule) and
whether its guard let it hand the frame to the multiplexed socket. -/

/-- Program counter of a sender thread.  `inFlight d g`: between the
increment and the decrement, having decided to hand the frame over (`d`)
while `g` closers had already taken the closing slot.  `done` keeps both
records. -/
inductive SenderPC
  | idle
  | inFlight (didsend : Bool) (closersAtInc : ℕ)
  | done (didsend : Bool) (closersAtInc : ℕ)
deriving DecidableEq

/-- Program counter of a closer thread.  `readv v0`: after the initial
`read()` returned `v0`, before the conditional add.  `spinning a`: inside
the unconditional spin loop, having added (`a = true`) or not. -/
inductive CloserPC
  | idle
  | readv (v0 : ℕ)
  | spinning (added : Bool)
  | done (added : Bool)
deriving DecidableEq

/-- Contribution of a sender to the low bits of the word: 1 while between
its increment and its decrement. -/
def SenderPC.flight : SenderPC → ℕ
  | .idle => 0
  | .inFlight _ _ => 1
  | .done _ _ => 0

/-- Whether a sender thread is currently outside its increment/decrement
window. -/
def SenderPC.exited : SenderPC → Prop
  | .idle => True
  | .inFlight _ _ => False
  | .done _ _ => True

/-- Contribution of a closer to the closing field: 1 once its add has
happened. -/
def CloserPC.addedCount : CloserPC → ℕ
  | .idle => 0
  | .readv _ => 0
  | .spinning a => a.toNat
  | .done a => a.toNat

/-- System state: the shared send-status word, two senders, three closers. -/
structure SysState where
  word : ℕ
  s1 : SenderPC
  s2 : SenderPC
  c1 : CloserPC
  c2 : CloserPC
  c3 : CloserPC
deriving DecidableEq

/-- Number of closers that have added `SendStatusClosing` to the word. -/
def SysState.closersAdded (st : SysState) : ℕ :=
  st.c1.addedCount + st.c2.addedCount + st.c3.addedCount

/-- Micro-steps of one sender.  `SenderStep g w pc w2 pc2`: with `g` closers
having already added, the sender takes the word from `w` to `w2`.  The
increment is atomic with its read-back (`++(*mSendStatus)` returns the new
value), and the decision to hand the frame over is a pure function of that
value, so both live on the increment step; the decrement is its own step. -/
inductive SenderStep : ℕ → ℕ → SenderPC → ℕ → SenderPC → Prop
  | inc (g w : ℕ) :
      SenderStep g w .idle (w + 1) (.inFlight (noCloserPresent (w + 1)) g)
  | dec (g w : ℕ) (d : Bool) (gi : ℕ) :
      SenderStep g w (.inFlight d gi) (w - 1) (.done d gi)

/-- Micro-steps of one closer, following `closeSendStatus`: a first read,
then the conditional (non-atomic with the read) add of `SendStatusClosing`,
then spin reads until the word is `SendStatusClosing`, twice or three times
it (non-exiting spin reads do not change state and are elided). -/
inductive CloserStep : ℕ → CloserPC → ℕ → CloserPC → Prop
  | read (w : ℕ) : CloserStep w .idle w (.readv w)
  | addYes (w v0 : ℕ) (h : noCloserPresent v0 = true) :
      CloserStep w (.readv v0) (w + SendStatusClosing) (.spinning true)
  | addNo (w v0 : ℕ) (h : noCloserPresent v0 = false) :
      CloserStep w (.readv v0) w (.spinning false)
  | spinExit (w : ℕ) (a : Bool) (h : spinDone w = true) :
      CloserStep w (.spinning a) w (.done a)

/-- One interleaved step of the five-thread system. -/
inductive SysStep : SysState → SysState → Prop
  | sender1 (st : SysState) (w2 : ℕ) (pc2 : SenderPC)
      (h : SenderStep st.closersAdded st.word st.s1 w2 pc2) :
      SysStep st { st with word := w2, s1 := pc2 }
  | sender2 (st : SysState) (w2 : ℕ) (pc2 : SenderPC)
      (h : SenderStep st.closersAdded st.word st.s2 w2 pc2) :
      SysStep st { st with word := w2, s2 := pc2 }
  | closer1 (st : SysState) (w2 : ℕ) (pc2 : CloserPC)
      (h : CloserStep st.word st.c1 w2 pc2) :
      SysStep st { st with word := w2, c1 := pc2 }
  | closer2 (st : SysState) (w2 : ℕ) (pc2 : CloserPC)
      (h : CloserStep st.word st.c2 w2 pc2) :
      SysStep st { st with word := w2, c2 := pc2 }
  | closer3 (st : SysState) (w2 : ℕ) (pc2 : CloserPC)
      (h : CloserStep st.word st.c3 w2 pc2) :
      SysStep st { st with word := w2, c3 := pc2 }

/-- Initial state: word 0 (the constructor news the atomic at 0), all
threads idle. -/
def SysState.init : SysState :=
  { word := 0, s1 := .idle, s2 := .idle, c1 := .idle, c2 := .idle, c3 := .idle }

/-- Reachability from the initial state under interleaved steps. -/
def SysReach (st : SysState) : Prop :=
  Relation.ReflTransGen SysStep SysState.init st

/-- A sender's record respects the protocol: if at its increment at least
one closer had taken the closing slot, it did not hand its frame over. -/
def SenderPC.noLateSend : SenderPC → Prop
  | .idle => True
  | .inFlight d g => 1 ≤ g → d = false
  | .done d g => 1 ≤ g → d = false

/-- Inductive invariant: the word is exactly the in-flight sender count plus
`SendStatusClosing` times the number of closers that added, and every
sender record satisfies `noLateSend`. -/
def SysInv (st : SysState) : Prop :=
  st.word = st.s1.flight + st.s2.flight + SendStatusClosing * st.closersAdded
    ∧ st.s1.noLateSend ∧ st.s2.noLateSend

/-! ## Helper lemmas -/

theorem SenderPC.flight_le_one (s : SenderPC) : s.flight ≤ 1 := by
  cases s <;> simp [SenderPC.flight]

theorem CloserPC.addedCount_le_one (c : CloserPC) : c.addedCount ≤ 1 := by
  cases c <;> simp [CloserPC.addedCount, Bool.toNat_le]

theorem SysState.closersAdded_le_three (st : SysState) : st.closersAdded ≤ 3 := by
  have h1 := st.c1.addedCount_le_one
  have h2 := st.c2.addedCount_le_one
  have h3 := st.c3.addedCount_le_one
  unfold SysState.closersAdded
  omega

/-- On a word made of a sender count of at most three plus
`SendStatusClosing` times a closer multiplicity between one and three, the
shared guard reports that a closer is present. -/
theorem noCloserPresent_of_closer (m g : ℕ) (hm : m ≤ 3) (hg1 : 1 ≤ g)
    (hg3 : g ≤ 3) :
    noCloserPresent (m + SendStatusClosing * g) = false := by
  interval_cases m <;> interval_cases g <;> decide

theorem SenderPC.flight_idle : SenderPC.flight .idle = 0 := rfl

theorem SenderPC.flight_inFlight (d : Bool) (g : ℕ) :
    SenderPC.flight (.inFlight d g) = 1 := rfl

theorem SenderPC.flight_done (d : Bool) (g : ℕ) :
    SenderPC.flight (.done d g) = 0 := rfl

theorem CloserPC.addedCount_idle : CloserPC.addedCount .idle = 0 := rfl

theorem CloserPC.addedCount_readv (v : ℕ) :
    CloserPC.addedCount (.readv v) = 0 := rfl

theorem CloserPC.addedCount_spinning (a : Bool) :
    CloserPC.addedCount (.spinning a) = a.toNat := rfl

theorem CloserPC.addedCount_done (a : Bool) :
    CloserPC.addedCount (.done a) = a.toNat := rfl

/-- Inversion for sender micro-steps. -/
theorem senderStep_cases_eq {g w w2 : ℕ} {pc pc2 : SenderPC}
    (h : SenderStep g w pc w2 pc2) :
    (pc = .idle ∧ w2 = w + 1 ∧ pc2 = .inFlight (noCloserPresent (w + 1)) g)
    ∨ (∃ d gi, pc = .inFlight d gi ∧ w2 = w - 1 ∧ pc2 = .done d gi) := by
  cases h with
  | inc => exact Or.inl ⟨rfl, rfl, rfl⟩
  | dec d gi => exact Or.inr ⟨d, gi, rfl, rfl, rfl⟩

/-- Inversion for closer micro-steps. -/
theorem closerStep_cases_eq {w w2 : ℕ} {pc pc2 : CloserPC}
    (h : CloserStep w pc w2 pc2) :
    (pc = .idle ∧ w2 = w ∧ pc2 = .readv w)
    ∨ (∃ v0, pc = .readv v0 ∧ noCloserPresent v0 = true
        ∧ w2 = w + SendStatusClosing ∧ pc2 = .spinning true)
    ∨ (∃ v0, pc = .readv v0 ∧ noCloserPresent v0 = false
        ∧ w2 = w ∧ pc2 = .spinning false)
    ∨ (∃ a, pc = .spinning a ∧ spinDone w = true ∧ w2 = w ∧ pc2 = .done a) := by
  cases h with
  | read => exact Or.inl ⟨rfl, rfl, rfl⟩
  | addYes v0 hg => exact Or.inr (Or.inl ⟨v0, rfl, hg, rfl, rfl⟩)
  | addNo v0 hg => exact Or.inr (Or.inr (Or.inl ⟨v0, rfl, hg, rfl, rfl⟩))
  | spinExit a hd => exact Or.inr (Or.inr (Or.inr ⟨a, rfl, hd, rfl, rfl⟩))

theorem sysInv_init : SysInv SysState.init :=
  ⟨rfl, trivial, trivial⟩

theorem sysInv_preserved {st st2 : SysState} (hi : SysInv st)
    (hs : SysStep st st2) : SysInv st2 := by
  obtain ⟨hw, hn1, hn2⟩ := hi
  cases hs with
  | sender1 w2 pc2 h =>
      rcases senderStep_cases_eq h with ⟨hpc, hw2, hpc2⟩ | ⟨d, gi, hpc, hw2, hpc2⟩
      · subst hw2; subst hpc2
        refine ⟨?_, ?_, hn2⟩
        · show st.word + 1 = 1 + st.s2.flight + SendStatusClosing * st.closersAdded
          rw [hpc, SenderPC.flight_idle] at hw
          omega
        · show 1 ≤ st.closersAdded → noCloserPresent (st.word + 1) = false
          intro hg
          have hf2 := st.s2.flight_le_one
          have hca := st.closersAdded_le_three
          rw [hpc, SenderPC.flight_idle] at hw
          have hrw : st.word + 1 =
              (st.s2.flight + 1) + SendStatusClosing * st.closersAdded := by omega
          rw [hrw]
          exact noCloserPresent_of_closer _ _ (by omega) hg hca
      · subst hw2; subst hpc2
        refine ⟨?_, ?_, hn2⟩
        · show st.word - 1 = 0 + st.s2.flight + SendStatusClosing * st.closersAdded
          rw [hpc, SenderPC.flight_inFlight] at hw
          omega
        · show (1 ≤ gi → d = false)
          rw [hpc] at hn1
          exact hn1
  | sender2 w2 pc2 h =>
      rcases senderStep_cases_eq h with ⟨hpc, hw2, hpc2⟩ | ⟨d, gi, hpc, hw2, hpc2⟩
      · subst hw2; subst hpc2
        refine ⟨?_, hn1, ?_⟩
        · show st.word + 1 = st.s1.flight + 1 + SendStatusClosing * st.closersAdded
          rw [hpc, SenderPC.flight_idle] at hw
          omega
        · show 1 ≤ st.closersAdded → noCloserPresent (st.word + 1) = false
          intro hg
          have hf1 := st.s1.flight_le_one
          have hca := st.closersAdded_le_three
          rw [hpc, SenderPC.flight_idle] at hw
          have hrw : st.word + 1 =
              (st.s1.flight + 1) + SendStatusClosing * st.closersAdded := by omega
          rw [hrw]
          exact noCloserPresent_of_closer _ _ (by omega) hg hca
      · subst hw2; subst hpc2
        refine ⟨?_, hn1, ?_⟩
        · show st.word - 1 = st.s1.flight + 0 + SendStatusClosing * st.closersAdded
          rw [hpc, SenderPC.flight_inFlight] at hw
          omega
        · show (1 ≤ gi → d = false)
          rw [hpc] at hn2
          exact hn2
  | closer1 w2 pc2 h =>
      have hca : st.closersAdded =
          st.c1.addedCount + st.c2.addedCount + st.c3.addedCount := rfl
      rcases closerStep_cases_eq h with ⟨hpc, hw2, hpc2⟩ | ⟨v0, hpc, hg, hw2, hpc2⟩ |
        ⟨v0, hpc, hg, hw2, hpc2⟩ | ⟨a, hpc, hd, hw2, hpc2⟩
      · subst hw2; subst hpc2
        refine ⟨?_, hn1, hn2⟩
        show st.word = st.s1.flight + st.s2.flight + SendStatusClosing *
          (0 + st.c2.addedCount + st.c3.addedCount)
        rw [hca, hpc, CloserPC.addedCount_idle] at hw
        exact hw
      · subst hw2; subst hpc2
        refine ⟨?_, hn1, hn2⟩
        show st.word + SendStatusClosing = st.s1.flight + st.s2.flight +
          SendStatusClosing * (1 + st.c2.addedCount + st.c3.addedCount)
        rw [hca, hpc, CloserPC.addedCount_readv] at hw
        have hdist : SendStatusClosing * (1 + st.c2.addedCount + st.c3.addedCount)
            = SendStatusClosing * (0 + st.c2.addedCount + st.c3.addedCount)
              + SendStatusClosing := by ring
        omega
      · subst hw2; subst hpc2
        refine ⟨?_, hn1, hn2⟩
        show st.word = st.s1.flight + st.s2.flight + SendStatusClosing *
          (0 + st.c2.addedCount + st.c3.addedCount)
        rw [hca, hpc, CloserPC.addedCount_readv] at hw
        exact hw
      · subst hw2; subst hpc2
        refine ⟨?_, hn1, hn2⟩
        show st.word = st.s1.flight + st.s2.flight + SendStatusClosing *
          (a.toNat + st.c2.addedCount + st.c3.addedCount)
        rw [hca, hpc, CloserPC.addedCount_spinning] at hw
        exact hw
  | closer2 w2 pc2 h =>
      have hca : st.closersAdded =
          st.c1.addedCount + st.c2.addedCount + st.c3.addedCount := rfl
      rcases closerStep_cases_eq h with ⟨hpc, hw2, hpc2⟩ | ⟨v0, hpc, hg, hw2, hpc2⟩ |
        ⟨v0, hpc, hg, hw2, hpc2⟩ | ⟨a, hpc, hd, hw2, hpc2⟩
      · subst hw2; subst hpc2
        refine ⟨?_, hn1, hn2⟩
        show st.word = st.s1.flight + st.s2.flight + SendStatusClosing *
          (st.c1.addedCount + 0 + st.c3.addedCount)
        rw [hca, hpc, CloserPC.addedCount_idle] at hw
        exact hw
      · subst hw2; subst hpc2
        refine ⟨?_, hn1, hn2⟩
        show st.word + SendStatusClosing = st.s1.flight + st.s2.flight +
          SendStatusClosing * (st.c1.addedCount + 1 + st.c3.addedCount)
        rw [hca, hpc, CloserPC.addedCount_readv] at hw
        have hdist : SendStatusClosing * (st.c1.addedCount + 1 + st.c3.addedCount)
            = SendStatusClosing * (st.c1.addedCount + 0 + st.c3.addedCount)
              + SendStatusClosing := by ring
        omega
      · subst hw2; subst hpc2
        refine ⟨?_, hn1, hn2⟩
        show st.word = st.s1.flight + st.s2.flight + SendStatusClosing *
          (st.c1.addedCount + 0 + st.c3.addedCount)
        rw [hca, hpc, CloserPC.addedCount_readv] at hw
        exact hw
      · subst hw2; subst hpc2
        refine ⟨?_, hn1, hn2⟩
        show st.word = st.s1.flight + st.s2.flight + SendStatusClosing *
          (st.c1.addedCount + a.toNat + st.c3.addedCount)
        rw [hca, hpc, CloserPC.addedCount_spinning] at hw
        exact hw
  | closer3 w2 pc2 h =>
      have hca : st.closersAdded =
          st.c1.addedCount + st.c2.addedCount + st.c3.addedCount := rfl
      rcases closerStep_cases_eq h with ⟨hpc, hw2, hpc2⟩ | ⟨v0, hpc, hg, hw2, hpc2⟩ |
        ⟨v0, hpc, hg, hw2, hpc2⟩ | ⟨a, hpc, hd, hw2, hpc2⟩
      · subst hw2; subst hpc2
        refine ⟨?_, hn1, hn2⟩
        show st.word = st.s1.flight + st.s2.flight + SendStatusClosing *
          (st.c1.addedCount + st.c2.addedCount + 0)
        rw [hca, hpc, CloserPC.addedCount_idle] at hw
        exact hw
      · subst hw2; subst hpc2
        refine ⟨?_, hn1, hn2⟩
        show st.word + SendStatusClosing = st.s1.flight + st.s2.flight +
          SendStatusClosing * (st.c1.addedCount + st.c2.addedCount + 1)
        rw [hca, hpc, CloserPC.addedCount_readv] at hw
        have hdist : SendStatusClosing * (st.c1.addedCount + st.c2.addedCount + 1)
            = SendStatusClosing * (st.c1.addedCount + st.c2.addedCount + 0)
              + SendStatusClosing := by ring
        omega
      · subst hw2; subst hpc2
        refine ⟨?_, hn1, hn2⟩
        show st.word = st.s1.flight + st.s2.flight + SendStatusClosing *
          (st.c1.addedCount + st.c2.addedCount + 0)
        rw [hca, hpc, CloserPC.addedCount_readv] at hw
        exact hw
      · subst hw2; subst hpc2
        refine ⟨?_, hn1, hn2⟩
        show st.word = st.s1.flight + st.s2.flight + SendStatusClosing *
          (st.c1.addedCount + st.c2.addedCount + a.toNat)
        rw [hca, hpc, CloserPC.addedCount_spinning] at hw
        exact hw

theorem sysInv_of_reach {st : SysState} (h : SysReach st) : SysInv st := by
  induction h with
  | refl => exact sysInv_init
  | tail hr hs ih => exact sysInv_preserved ih hs

theorem SenderPC.flight_eq_zero_of_exited {s : SenderPC} (h : s.exited) :
    s.flight = 0 := by
  cases s <;> simp_all [SenderPC.flight, SenderPC.exited]

/-! ## Claim theorems -/

/-- C8: for any interleaving of at most two concurrent `TCPStream::send`
calls and up to three `closeSendStatus` callers on one stream's send-status
word, every send's single atomic increment is matched by its single atomic
decrement (each sender contributes 1 to the word exactly while inside its
window), so once both senders have exited the low sender-count bits of the
word are zero; and a sender whose increment happened after at least one
closer had taken the closing slot never hands its frame to the multiplexed
socket. -/
theorem send_close_interleaving (st : SysState) (h : SysReach st) :
    ((st.s1.exited ∧ st.s2.exited) → st.word % SendStatusClosing = 0)
    ∧ st.s1.noLateSend ∧ st.s2.noLateSend := by
  obtain ⟨hw, hn1, hn2⟩ := sysInv_of_reach h
  refine ⟨?_, hn1, hn2⟩
  rintro ⟨e1, e2⟩
  rw [hw, SenderPC.flight_eq_zero_of_exited e1,
    SenderPC.flight_eq_zero_of_exited e2]
  simp [Nat.mul_mod_right]

/-- A concrete reachable state: the first closer has read 0 and added
`SendStatusClosing`; the first sender has then incremented, observed the
closing field non-zero, and recorded that it will not hand its frame
over. -/
def lateSendState : SysState :=
  { word := SendStatusClosing + 1, s1 := .inFlight false 1, s2 := .idle,
    c1 := .spinning true, c2 := .idle, c3 := .idle }

theorem lateSendState_reachable : SysReach lateSendState := by
  have h1 : SysStep SysState.init
      { word := 0, s1 := .idle, s2 := .idle, c1 := .readv 0, c2 := .idle,
        c3 := .idle } :=
    SysStep.closer1 _ _ _ (CloserStep.read 0)
  have h2 : SysStep
      { word := 0, s1 := .idle, s2 := .idle, c1 := .readv 0, c2 := .idle,
        c3 := .idle }
      { word := SendStatusClosing, s1 := .idle, s2 := .idle,
        c1 := .spinning true, c2 := .idle, c3 := .idle } :=
    SysStep.closer1 _ _ _ (CloserStep.addYes 0 0 rfl)
  have h3 : SysStep
      { word := SendStatusClosing, s1 := .idle, s2 := .idle,
        c1 := .spinning true, c2 := .idle, c3 := .idle }
      lateSendState :=
    SysStep.sender1 _ _ _ (SenderStep.inc 1 SendStatusClosing)
  exact Relation.ReflTransGen.tail (Relation.ReflTransGen.tail
    (Relation.ReflTransGen.tail Relation.ReflTransGen.refl h1) h2) h3

/-- Witness for C8 at the concrete reachable state `lateSendState`. -/
theorem send_close_interleaving_witness :
    ((lateSendState.s1.exited ∧ lateSendState.s2.exited) →
      lateSendState.word % SendStatusClosing = 0)
    ∧ lateSendState.s1.noLateSend ∧ lateSendState.s2.noLateSend :=
  send_close_interleaving lateSendState lateSendState_reachable

/-- C1 is false as stated: at word value `SendStatusClosing` (a closer is
already present), a `closeSendStatus` call does NOT add another
`SendStatusClosing` (the guard at line 109 skips the add: the word stays
put and `incd` stays false) and does NOT skip the spin-wait (the loop at
line 115 runs unconditionally and consumes a read). -/
theorem closeSendStatus_late_closer_cx :
    noCloserPresent SendStatusClosing = false
    ∧ (TCPStream.closeSendStatus SendStatusClosing [SendStatusClosing]).added
        = false
    ∧ (TCPStream.closeSendStatus SendStatusClosing [SendStatusClosing]).word
        = SendStatusClosing
    ∧ (TCPStream.closeSendStatus SendStatusClosing [SendStatusClosing]).spinReads
        = some 1 := by
  decide

/-- C1 (amended): a `closeSendStatus` call made while a closer is already
present on the word adds nothing (the word is unchanged and `incd` is
false) and does not skip the spin-wait — every call spin-reads, consuming
at least one read whenever the loop exits — and the spin exit condition
holds exactly at the values K, 2K and 3K of K = `SendStatusClosing`. -/
theorem closeSendStatus_late_closer (w : ℕ) (reads : List ℕ)
    (h : noCloserPresent w = false) :
    (TCPStream.closeSendStatus w reads).added = false
    ∧ (TCPStream.closeSendStatus w reads).word = w
    ∧ (∀ n, (TCPStream.closeSendStatus w reads).spinReads = some n → 1 ≤ n)
    ∧ (∀ v, spinDone v = true ↔
        (v = SendStatusClosing ∨ v = 2 * SendStatusClosing
          ∨ v = 3 * SendStatusClosing)) := by
  cases hfi : reads.findIdx? (fun v => spinDone v) with
  | none =>
      refine ⟨?_, ?_, ?_, ?_⟩
      · simp [TCPStream.closeSendStatus, h, hfi]
      · simp [TCPStream.closeSendStatus, h, hfi]
      · intro n hn
        simp [TCPStream.closeSendStatus, h, hfi] at hn
      · intro v
        simp only [spinDone, Bool.or_eq_true, beq_iff_eq]
        tauto
  | some i =>
      refine ⟨?_, ?_, ?_, ?_⟩
      · simp [TCPStream.closeSendStatus, h, hfi]
      · simp [TCPStream.closeSendStatus, h, hfi]
      · intro n hn
        simp [TCPStream.closeSendStatus, h, hfi] at hn
        omega
      · intro v
        simp only [spinDone, Bool.or_eq_true, beq_iff_eq]
        tauto

/-- Witness for the amended C1 at word `SendStatusClosing` with an empty
spin trace. -/
theorem closeSendStatus_late_closer_witness :
    noCloserPresent SendStatusClosing = false
    ∧ ((TCPStream.closeSendStatus SendStatusClosing []).added = false
      ∧ (TCPStream.closeSendStatus SendStatusClosing []).word
          = SendStatusClosing
      ∧ (∀ n, (TCPStream.closeSendStatus SendStatusClosing []).spinReads
            = some n → 1 ≤ n)
      ∧ (∀ v, spinDone v = true ↔
          (v = SendStatusClosing ∨ v = 2 * SendStatusClosing
            ∨ v = 3 * SendStatusClosing))) :=
  ⟨by decide, closeSendStatus_late_closer SendStatusClosing [] (by decide)⟩

/-- C2: when the payload length plus the serialized stream-id length
reaches 2^30, `TCPStream::send` fails at the call site with
`PayloadTooLarge` and nothing is handed to the multiplexed socket. -/
theorem send_payload_too_large (sid word : ℕ) (data : List ℕ)
    (reliability : StreamReliability)
    (h : 2 ^ 30 ≤ data.length + (vuintSerialize sid).length) :
    (TCPStream.send sid word data reliability).error = some .PayloadTooLarge
    ∧ (TCPStream.send sid word data reliability).enqueued = none := by
  have hnot : ¬ (data.length + (vuintSerialize sid).length < 2 ^ 30) := by
    omega
  have h1 : TCPStream.send sid word data reliability =
      { error := some .PayloadTooLarge, built := none, enqueued := none,
        chunkFreed := false, log := none, finalWord := word } := by
    simp [TCPStream.send, hnot]
    intro hlt
    exact absurd hlt hnot
  rw [h1]
  exact ⟨rfl, rfl⟩

/-- Witness for C2 on a 2^30-byte payload. -/
theorem send_payload_too_large_witness :
    2 ^ 30 ≤ (List.replicate (2 ^ 30) 0).length + (vuintSerialize 1).length
    ∧ ((TCPStream.send 1 0 (List.replicate (2 ^ 30) 0) .ReliableOrdered).error
          = some .PayloadTooLarge
      ∧ (TCPStream.send 1 0 (List.replicate (2 ^ 30) 0) .ReliableOrdered).enqueued
          = none) :=
  ⟨by rw [List.length_replicate]; exact Nat.le_add_right _ _,
    send_payload_too_large 1 0 _ _
      (by rw [List.length_replicate]; exact Nat.le_add_right _ _)⟩

/-- C3: below the size cap, `TCPStream::send` builds exactly one contiguous
buffer holding the uint30 serialization of L+S, then the serialized stream
id, then the payload unchanged, of total size H + L + S. -/
theorem send_frame_layout (sid word : ℕ) (data : List ℕ)
    (reliability : StreamReliability)
    (h : data.length + (vuintSerialize sid).length < 2 ^ 30) :
    (TCPStream.send sid word data reliability).built =
      some (vuintSerialize (data.length + (vuintSerialize sid).length)
        ++ vuintSerialize sid ++ data)
    ∧ (vuintSerialize (data.length + (vuintSerialize sid).length)
        ++ vuintSerialize sid ++ data).length =
      (vuintSerialize (data.length + (vuintSerialize sid).length)).length
        + data.length + (vuintSerialize sid).length := by
  constructor
  · simp only [TCPStream.send, if_pos h]
    split <;> rfl
  · simp [List.length_append]
    omega

/-- Witness for C3 on the one-byte payload [7] from stream id 1. -/
theorem send_frame_layout_witness :
    ([7] : List ℕ).length + (vuintSerialize 1).length < 2 ^ 30
    ∧ ((TCPStream.send 1 0 [7] .Unreliable).built =
        some (vuintSerialize (([7] : List ℕ).length + (vuintSerialize 1).length)
          ++ vuintSerialize 1 ++ [7])
      ∧ (vuintSerialize (([7] : List ℕ).length + (vuintSerialize 1).length)
          ++ vuintSerialize 1 ++ [7]).length =
        (vuintSerialize (([7] : List ℕ).length + (vuintSerialize 1).length)).length
          + ([7] : List ℕ).length + (vuintSerialize 1).length) :=
  ⟨by decide, send_frame_layout 1 0 [7] .Unreliable (by decide)⟩

/-- C4 is false as stated: on the drop path the debug log entry reads
"printing to closed stream id " followed by the id, not
"send to closed stream". -/
theorem send_closed_log_cx :
    (TCPStream.send 1 SendStatusClosing [] .ReliableOrdered).enqueued = none
    ∧ (TCPStream.send 1 SendStatusClosing [] .ReliableOrdered).log
        = some "printing to closed stream id 1"
    ∧ (TCPStream.send 1 SendStatusClosing [] .ReliableOrdered).log
        ≠ some "send to closed stream" := by
  decide

/-- C4 (amended): a `TCPStream::send` call that observes the closing field
non-zero after its increment hands nothing to the multiplexed socket, frees
the encoded chunk, logs "printing to closed stream id " followed by the
stream id at debug level, performs its matching decrement (the word it
leaves equals the word it found), and reports no error to the caller. -/
theorem send_to_closing_stream (sid word : ℕ) (data : List ℕ)
    (reliability : StreamReliability)
    (hsize : data.length + (vuintSerialize sid).length < 2 ^ 30)
    (hclose : noCloserPresent (word + 1) = false) :
    (TCPStream.send sid word data reliability).enqueued = none
    ∧ (TCPStream.send sid word data reliability).chunkFreed = true
    ∧ (TCPStream.send sid word data reliability).log
        = some ("printing to closed stream id " ++ toString sid)
    ∧ (TCPStream.send sid word data reliability).finalWord = word
    ∧ (TCPStream.send sid word data reliability).error = none := by
  have hsize2 : data.length + (vuintSerialize sid).length < 1073741824 := hsize
  refine ⟨?_, ?_, ?_, ?_, ?_⟩ <;> simp [TCPStream.send, hsize2, hclose]

/-- Witness for the amended C4 at stream id 1 with one closer on the
word. -/
theorem send_to_closing_stream_witness :
    (([] : List ℕ).length + (vuintSerialize 1).length < 2 ^ 30
      ∧ noCloserPresent (SendStatusClosing + 1) = false)
    ∧ ((TCPStream.send 1 SendStatusClosing [] .Unreliable).enqueued = none
      ∧ (TCPStream.send 1 SendStatusClosing [] .Unreliable).chunkFreed = true
      ∧ (TCPStream.send 1 SendStatusClosing [] .Unreliable).log
          = some ("printing to closed stream id " ++ toString (1 : ℕ))
      ∧ (TCPStream.send 1 SendStatusClosing [] .Unreliable).finalWord
          = SendStatusClosing
      ∧ (TCPStream.send 1 SendStatusClosing [] .Unreliable).error = none) :=
  ⟨⟨by decide, by decide⟩,
    send_to_closing_stream 1 SendStatusClosing [] .Unreliable
      (by decide) (by decide)⟩

/-- Helper for C5: any request `TCPStream::send` hands over carries exactly
the flag pair the reliability switch chose. -/
theorem send_enqueued_flags (sid word : ℕ) (data : List ℕ)
    (reliability : StreamReliability) (req : RawRequest)
    (hreq : (TCPStream.send sid word data reliability).enqueued = some req) :
    req.unordered = (reliabilityFlags reliability).1
    ∧ req.unreliable = (reliabilityFlags reliability).2 := by
  obtain ⟨o, uo, ur, dd⟩ := req
  by_cases hsz : data.length + (vuintSerialize sid).length < 2 ^ 30
  · have hsz2 : data.length + (vuintSerialize sid).length < 1073741824 := hsz
    by_cases hcl : noCloserPresent (word + 1) = true
    · simp [TCPStream.send, hsz2, hcl, RawRequest.mk.injEq] at hreq
      simp_all
    · simp [TCPStream.send, hsz2, hcl] at hreq
  · have hsz2 : ¬ data.length + (vuintSerialize sid).length < 1073741824 := hsz
    simp [TCPStream.send, hsz2] at hreq

/-- C5: the reliability switch in `TCPStream::send` maps Unreliable to
(unordered, unreliable), ReliableOrdered to (ordered, reliable) and
ReliableUnordered to (unordered, reliable), and no send ever hands the
multiplexed socket a request with the forbidden (ordered, unreliable)
combination. -/
theorem send_reliability_mapping :
    reliabilityFlags .Unreliable = (true, true)
    ∧ reliabilityFlags .ReliableOrdered = (false, false)
    ∧ reliabilityFlags .ReliableUnordered = (true, false)
    ∧ ∀ (sid word : ℕ) (data : List ℕ) (reliability : StreamReliability)
        (req : RawRequest),
        (TCPStream.send sid word data reliability).enqueued = some req →
        ¬(req.unordered = false ∧ req.unreliable = true) := by
  refine ⟨rfl, rfl, rfl, ?_⟩
  intro sid word data reliability req hreq hbad
  obtain ⟨hu, hr⟩ := send_enqueued_flags sid word data reliability req hreq
  obtain ⟨hb1, hb2⟩ := hbad
  cases reliability <;> simp_all [reliabilityFlags]

/-- Witness for C5 at a concrete reliable-ordered send. -/
theorem send_reliability_mapping_witness :
    (TCPStream.send 1 0 [] .ReliableOrdered).enqueued
      = some ⟨1, false, false, [2, 2]⟩
    ∧ ¬((false : Bool) = false ∧ (false : Bool) = true) :=
  ⟨by decide,
    send_reliability_mapping.2.2.2 1 0 [] .ReliableOrdered
      ⟨1, false, false, [2, 2]⟩ (by decide)⟩

/-- C6: `TCPStream::close` performs, in this order: the closing-slot
acquisition and sender drain (`closeSendStatus`), the removal of the
stream's callback set from the multiplexed socket by installing NULL, and
only then the request that the socket emit `CLOSE_STREAM`; afterwards the
socket holds the NULL callback entry for the id and the appended control
frame. -/
theorem close_sequence (st : TCPStreamState) (m : MuxSocket)
    (spinTrace : List ℕ) :
    (TCPStream.close st m spinTrace).1 =
      [.acquireCloseSlot, .removeCallbacks st.mID, .emitCloseStream st.mID]
    ∧ (TCPStream.close st m spinTrace).2.1.callbacks.lookup st.mID = some none
    ∧ (TCPStream.close st m spinTrace).2.1.controlSent =
        m.controlSent ++ [.CLOSE_STREAM st.mID]
    ∧ (TCPStream.close st m spinTrace).2.2 =
        TCPStream.closeSendStatus st.sendWord spinTrace := by
  refine ⟨rfl, ?_, rfl, rfl⟩
  simp [TCPStream.close, MuxSocket.addCallbacks, MuxSocket.closeStream,
    List.lookup]

/-- C7: `TCPStream::cloneFrom` returns false exactly on a cross-family
source, a source with a null socket reference, or a socket that is not
Connected (where `addCallbacks` reports DISCONNECTED); on a Connected
source it adopts the socket, takes the fresh id from `getNewID`, installs
the given callbacks under that id, and returns true. -/
theorem cloneFrom_result (self : TCPStreamState) (other : StreamHandle)
    (cbs : Callbacks) :
    ((TCPStream.cloneFrom self other cbs).1 = false ↔
      (other = .nonTcp
        ∨ (∃ sid, other = .tcp none sid)
        ∨ (∃ m sid, other = .tcp (some m) sid ∧ m.status ≠ .Connected)))
    ∧ (∀ m sid, other = .tcp (some m) sid → m.status = .Connected →
        (TCPStream.cloneFrom self other cbs).1 = true
        ∧ (TCPStream.cloneFrom self other cbs).2.mID = m.nextLocalStreamId
        ∧ ∃ m2, (TCPStream.cloneFrom self other cbs).2.mSocket = some m2
            ∧ m2.callbacks.lookup m.nextLocalStreamId = some (some cbs)
            ∧ m2.nextLocalStreamId = m.nextLocalStreamId + 2) := by
  constructor
  · cases other with
    | nonTcp => simp [TCPStream.cloneFrom]
    | tcp sock sid =>
        cases sock with
        | none => simp [TCPStream.cloneFrom]
        | some m =>
            by_cases hm : m.status = .Connected <;>
              simp [TCPStream.cloneFrom, MuxSocket.getNewID,
                MuxSocket.addCallbacks, hm]
  · intro m sid hother hconn
    subst hother
    refine ⟨?_, rfl, ?_⟩
    · simp [TCPStream.cloneFrom, MuxSocket.getNewID, MuxSocket.addCallbacks,
        hconn]
    · refine ⟨_, rfl, ?_, rfl⟩
      simp [MuxSocket.addCallbacks, List.lookup]

/-- Witness for C7 on a Connected socket with next id 5. -/
theorem cloneFrom_result_witness :
    (TCPStream.cloneFrom ⟨0, none, 0⟩
        (.tcp (some ⟨5, .Connected, [], []⟩) 1) ⟨1, 2, 3⟩).1 = true
    ∧ (TCPStream.cloneFrom ⟨0, none, 0⟩
        (.tcp (some ⟨5, .Connected, [], []⟩) 1) ⟨1, 2, 3⟩).2.mID = 5
    ∧ ∃ m2, (TCPStream.cloneFrom ⟨0, none, 0⟩
          (.tcp (some ⟨5, .Connected, [], []⟩) 1) ⟨1, 2, 3⟩).2.mSocket = some m2
        ∧ m2.callbacks.lookup 5 = some (some ⟨1, 2, 3⟩)
        ∧ m2.nextLocalStreamId = 5 + 2 :=
  (cloneFrom_result ⟨0, none, 0⟩
    (.tcp (some ⟨5, .Connected, [], []⟩) 1) ⟨1, 2, 3⟩).2
    ⟨5, .Connected, [], []⟩ 1 rfl rfl

/-- C9: `io_service_initializer` writes the singleton address only into its
by-value pointer parameter; the static local pointer of
`singletonIOService` stays NULL after the once-initializer runs, and the
pointer the function dereferences to form its returned reference is
NULL. -/
theorem singletonIOService_null_deref (g : IOGlobals) (p : Option ℕ)
    (h : g.io_static = none) :
    (IOServiceFactory.io_service_initializer g p).2 = some ioStaticAddr
    ∧ (IOServiceFactory.io_service_initializer g p).1.io_static = g.io_static
    ∧ (IOServiceFactory.singletonIOService g).1.io_static = none
    ∧ (IOServiceFactory.singletonIOService g).2 = none := by
  refine ⟨rfl, rfl, ?_, ?_⟩ <;>
    · unfold IOServiceFactory.singletonIOService
        IOServiceFactory.io_service_initializer
      by_cases ho : g.once_done <;> simp [ho, h]

/-- Witness for C9 from the process-start state. -/
theorem singletonIOService_null_deref_witness :
    IOGlobals.init.io_static = none
    ∧ ((IOServiceFactory.io_service_initializer IOGlobals.init none).2
          = some ioStaticAddr
      ∧ (IOServiceFactory.io_service_initializer IOGlobals.init none).1.io_static
          = IOGlobals.init.io_static
      ∧ (IOServiceFactory.singletonIOService IOGlobals.init).1.io_static = none
      ∧ (IOServiceFactory.singletonIOService IOGlobals.init).2 = none) :=
  ⟨rfl, singletonIOService_null_deref IOGlobals.init none rfl⟩

/-- C10: a `cloneFrom` that fails because `addCallbacks` reports
DISCONNECTED is not atomic: the stream has already adopted the source
socket reference and kept a freshly allocated id, and the socket's
stream-id counter has advanced by 2. -/
theorem cloneFrom_failure_not_atomic (self : TCPStreamState) (m : MuxSocket)
    (sid : ℕ) (cbs : Callbacks) (h : m.status ≠ .Connected) :
    (TCPStream.cloneFrom self (.tcp (some m) sid) cbs).1 = false
    ∧ (TCPStream.cloneFrom self (.tcp (some m) sid) cbs).2.mID
        = m.nextLocalStreamId
    ∧ ((TCPStream.cloneFrom self (.tcp (some m) sid) cbs).2.mSocket.map
        MuxSocket.nextLocalStreamId) = some (m.nextLocalStreamId + 2) := by
  refine ⟨?_, rfl, ?_⟩ <;>
    simp [TCPStream.cloneFrom, MuxSocket.getNewID, MuxSocket.addCallbacks, h]

/-- Witness for C10 on a Disconnected socket with next id 5. -/
theorem cloneFrom_failure_not_atomic_witness :
    (⟨5, .Disconnected, [], []⟩ : MuxSocket).status ≠ .Connected
    ∧ ((TCPStream.cloneFrom ⟨0, none, 0⟩
          (.tcp (some ⟨5, .Disconnected, [], []⟩) 1) ⟨1, 2, 3⟩).1 = false
      ∧ (TCPStream.cloneFrom ⟨0, none, 0⟩
          (.tcp (some ⟨5, .Disconnected, [], []⟩) 1) ⟨1, 2, 3⟩).2.mID = 5
      ∧ ((TCPStream.cloneFrom ⟨0, none, 0⟩
          (.tcp (some ⟨5, .Disconnected, [], []⟩) 1) ⟨1, 2, 3⟩).2.mSocket.map
            MuxSocket.nextLocalStreamId) = some (5 + 2)) :=
  ⟨by decide,
    cloneFrom_failure_not_atomic ⟨0, none, 0⟩ ⟨5, .Disconnected, [], []⟩ 1
      ⟨1, 2, 3⟩ (by decide)⟩

end Network
end Sirikata
